import Mathlib

/-!
Formal model of `src/data-seeding/seed_patents.py`, the patent-harvesting
pipeline: rate-limited API requests, two-stage fetch (bulk search, then a
per-record summary), metadata normalization, and an insert-or-update into
the `patents` table, driven by a list of configured topics.

Network and database effects are abstracted into explicit oracles: each
remote call's outcome is a value of `Except TransportFailure _` (the
`requests.exceptions.RequestException` family collapses branches to the
`Except.error` case), and whether a given `cursor.execute` raises is an
oracle `insertOk : Nat -> Bool` indexed by loop iteration.  The database
table is a list of rows, threaded through the run.
-/

namespace SeedPatents

/-- Shape of one element of a hit's `assignees` list; every field is read
with `.get`, hence `Option`. -/
structure Assignee where
  assignee_organization : Option String
  assignee_country : Option String
  assignee_type : Option String
deriving DecidableEq

/-- Shape of one element of a hit's `cpc_current` list. -/
structure Cpc where
  cpc_group_id : Option String
deriving DecidableEq

/-- Shape of one element of a hit's `wipo` list. -/
structure WipoField where
  wipo_field_id : Option String
deriving DecidableEq

/-- Shape of one element of a hit's `inventors` list. -/
structure Inventor where
  inventor_name_first : Option String
  inventor_name_last : Option String
deriving DecidableEq

/-- A raw search hit as returned by the bulk search endpoint.  The four
list-valued keys are read in the source as `patent.get(key, [])`, so a
missing key and an empty list coincide and are both modelled as `[]`. -/
structure Patent where
  patent_id : Option String
  patent_title : Option String
  patent_date : Option String
  assignees : List Assignee
  cpc_current : List Cpc
  inventors : List Inventor
  wipo : List WipoField
deriving DecidableEq

/-- Body of a well-formed JSON response of the search endpoint.  The
source reads the flag as `data.get("error", True)`: `error = none` models
a body with no `"error"` key. -/
structure SearchBody where
  error : Option Bool
  patents : List Patent
  total_hits : Nat
deriving DecidableEq

/-- One element of the summary endpoint's `g_brf_sum_texts` list. -/
structure SummaryTextRec where
  summary_text : Option String
deriving DecidableEq

/-- Body of a well-formed JSON response of the summary endpoint.  The
source guards with `not data.get("g_brf_sum_texts")`, under which a
missing key, `None`, and `[]` are all falsy, so all three are modelled
as `[]`. -/
structure SummaryBody where
  error : Option Bool
  g_brf_sum_texts : List SummaryTextRec
deriving DecidableEq

/-- The ways `rate_limited_request` can fail: `requests` connection
errors, the 30s timeout, and the `raise_for_status` non-success statuses
are all subclasses of `requests.exceptions.RequestException`, the single
class caught by the callers. -/
inductive TransportFailure where
  | connectionError
  | timeout
  | badStatus (code : Nat)
deriving DecidableEq

/-- Response-handling of `search_patents` (src lines 64-123).  The query
construction and the HTTP exchange are abstracted into `resp`; the
function returns `[]` on any `RequestException` and on a body whose
`error` flag is truthy or absent, and otherwise `data.get("patents", [])`. -/
def search_patents (resp : Except TransportFailure SearchBody) : List Patent :=
  match resp with
  | Except.error _ => []
  | Except.ok data => if data.error.getD true then [] else data.patents

/-- Response-handling of `fetch_patent_summary` (src lines 126-151):
`None` on any `RequestException`, on a truthy-or-absent `error` flag, and
on an empty `g_brf_sum_texts`; otherwise `g_brf_sum_texts[0].get("summary_text")`. -/
def fetch_patent_summary (resp : Except TransportFailure SummaryBody) : Option String :=
  match resp with
  | Except.error _ => none
  | Except.ok data =>
    if data.error.getD true then none
    else
      match data.g_brf_sum_texts with
      | [] => none
      | t :: _ => t.summary_text

/-- The dictionary built by `extract_patent_metadata` (src lines 154-190). -/
structure PatentData where
  patent_id : Option String
  patent_title : Option String
  patent_date : Option String
  assignee_organization : Option String
  assignee_country : Option String
  assignee_type : Option String
  cpc_groups : List String
  wipo_field_id : Option String
  inventor_count : Nat
  inventor_names : List String
  raw_data : Patent
deriving DecidableEq

/-- Python `str.strip()` on the whitespace relevant here: drop leading and
trailing whitespace characters. -/
def pyStrip (s : String) : String :=
  ⟨(s.data.dropWhile Char.isWhitespace).reverse.dropWhile Char.isWhitespace |>.reverse⟩

/-- The inventor-name expression of the source:
`f"{{inv.get('inventor_name_first','')}} {{inv.get('inventor_name_last','')}}".strip()`
(braces doubled here only for quoting). -/
def inventorName (inv : Inventor) : String :=
  pyStrip ((inv.inventor_name_first.getD "") ++ " " ++ (inv.inventor_name_last.getD ""))

/-- `extract_patent_metadata` (src lines 154-190).  `first_assignee` is
`assignees[0] if assignees else {}` and `{}.get(k)` is `None`, modelled by
`head?.bind`.  The `cpc_groups` comprehension keeps `cpc.get("cpc_group_id")`
only when truthy, i.e. present and not the empty string. -/
def extract_patent_metadata (patent : Patent) : PatentData :=
  let first_assignee := patent.assignees.head?
  { patent_id := patent.patent_id
    patent_title := patent.patent_title
    patent_date := patent.patent_date
    assignee_organization := first_assignee.bind (fun a => a.assignee_organization)
    assignee_country := first_assignee.bind (fun a => a.assignee_country)
    assignee_type := first_assignee.bind (fun a => a.assignee_type)
    cpc_groups := patent.cpc_current.filterMap
      (fun c => c.cpc_group_id.bind (fun s => if s = "" then none else some s))
    wipo_field_id := patent.wipo.head?.bind (fun w => w.wipo_field_id)
    inventor_count := patent.inventors.length
    inventor_names := patent.inventors.map inventorName
    raw_data := patent }

/-- One row of the `patents` table (columns of the INSERT in
`insert_patent`, src lines 193-218). -/
structure PatentRow where
  patent_id : Option String
  patent_title : Option String
  patent_date : Option String
  summary_text : Option String
  assignee_organization : Option String
  assignee_country : Option String
  assignee_type : Option String
  cpc_groups : List String
  wipo_field_id : Option String
  inventor_count : Nat
  inventor_names : List String
  raw_data : Patent
  search_topic : String
deriving DecidableEq

/-- The VALUES tuple of the INSERT: the metadata dictionary together with
the `summary_text` attached by `process_topic` and the `search_topic`
attached inside `insert_patent`. -/
def rowOf (pd : PatentData) (summary_text : Option String) (search_topic : String) : PatentRow :=
  { patent_id := pd.patent_id
    patent_title := pd.patent_title
    patent_date := pd.patent_date
    summary_text := summary_text
    assignee_organization := pd.assignee_organization
    assignee_country := pd.assignee_country
    assignee_type := pd.assignee_type
    cpc_groups := pd.cpc_groups
    wipo_field_id := pd.wipo_field_id
    inventor_count := pd.inventor_count
    inventor_names := pd.inventor_names
    raw_data := pd.raw_data
    search_topic := search_topic }

/-- Action of the `ON CONFLICT (patent_id) DO UPDATE` clause on one stored
row: a row with the conflicting key takes the excluded row's
`summary_text` and `search_topic`; every other row is untouched. -/
def updateRow (r : PatentRow) (row : PatentRow) : PatentRow :=
  if row.patent_id = r.patent_id then
    { row with summary_text := r.summary_text, search_topic := r.search_topic }
  else row

/-- Table-level semantics of the INSERT ... ON CONFLICT statement of
`insert_patent` (src lines 193-218): if some stored row has the new row's
`patent_id`, the conflicting row is updated in place (only `summary_text`
and `search_topic`); otherwise the new row is appended. -/
def upsertRow (tbl : List PatentRow) (r : PatentRow) : List PatentRow :=
  if tbl.any (fun row => decide (row.patent_id = r.patent_id)) then
    tbl.map (updateRow r)
  else tbl ++ [r]

/-- `insert_patent(cursor, patent_data, search_topic)` (src lines 193-218),
where `patent_data` carries the `summary_text` set by `process_topic`. -/
def insert_patent (tbl : List PatentRow) (patent_data : PatentData)
    (summary_text : Option String) (search_topic : String) : List PatentRow :=
  upsertRow tbl (rowOf patent_data summary_text search_topic)

/-- Topic entry of `config["search_topics"]` as read by `process_topic`. -/
structure TopicConfig where
  name : String
  query : String
  max_patents : Nat
deriving DecidableEq

/-- Observable outcome of `process_topic`: its return value
(`inserted_count`), the table after its commits and rollbacks, the ids
passed to `fetch_patent_summary`, and how many `insert_patent` calls were
attempted. -/
structure ProcResult where
  inserted_count : Nat
  tbl : List PatentRow
  fetchedIds : List (Option String)
  upsertAttempts : Nat
deriving DecidableEq

/-- The per-hit loop of `process_topic` (src lines 243-276).  `i` is the
0-based loop index; `insertOk i` tells whether iteration `i`'s
`insert_patent` + `commit` succeeds (`True`) or raises, in which case the
`rollback` leaves the table unchanged and the loop continues. -/
def processHits (topic_name : String)
    (summaryResp : Option String → Except TransportFailure SummaryBody)
    (insertOk : Nat → Bool) : List Patent → Nat → ProcResult → ProcResult
  | [], _, st => st
  | patent :: rest, i, st =>
    let patent_data := extract_patent_metadata patent
    let summary_text := fetch_patent_summary (summaryResp patent.patent_id)
    let st1 : ProcResult :=
      { st with fetchedIds := st.fetchedIds ++ [patent.patent_id]
                upsertAttempts := st.upsertAttempts + 1 }
    let st2 : ProcResult :=
      if insertOk i then
        { st1 with tbl := insert_patent st1.tbl patent_data summary_text topic_name
                   inserted_count := st1.inserted_count + 1 }
      else st1
    processHits topic_name summaryResp insertOk rest (i + 1) st2

/-- `process_topic` (src lines 221-293): search; if no patents, return 0
at once; otherwise run the per-hit loop from a fresh count. -/
def process_topic (topic_config : TopicConfig)
    (searchResp : Except TransportFailure SearchBody)
    (summaryResp : Option String → Except TransportFailure SummaryBody)
    (insertOk : Nat → Bool) (tbl : List PatentRow) : ProcResult :=
  let patents := search_patents searchResp
  if patents.isEmpty then ⟨0, tbl, [], 0⟩
  else processHits topic_config.name summaryResp insertOk patents 0 ⟨0, tbl, [], 0⟩

/-- The topic loop of `main` (src lines 296-305): fold the topics in order,
threading the table (the shared connection) and summing the returned
counts into `total_inserted`. -/
def main (topics : List TopicConfig)
    (searchRespF : TopicConfig → Except TransportFailure SearchBody)
    (summaryResp : Option String → Except TransportFailure SummaryBody)
    (insertOkF : TopicConfig → Nat → Bool)
    (tbl : List PatentRow) : Nat × List PatentRow :=
  topics.foldl
    (fun acc topic =>
      let st := process_topic topic (searchRespF topic) summaryResp (insertOkF topic) acc.2
      (acc.1 + st.inserted_count, st.tbl))
    (0, tbl)

/-- `ONE_MINUTE` (src line 40): the rate window length in seconds. -/
def ONE_MINUTE : Nat := 60

/-- Modelled from the spec: the blocking rule of the Rate Gate (spec 4.1).
In the source, `rate_limited_request` delegates pacing to the third-party
`ratelimit` decorators `@sleep_and_retry @limits(calls=CALLS_PER_MINUTE,
period=ONE_MINUTE)`, whose code is not under src/; the gate is therefore
modelled from the spec's contract: `acquire()` blocks until fewer than
`calls` requests have been issued in the trailing `ONE_MINUTE` window.
`hist` lists previous issue times, most recent first; a call arriving at
time `t` is issued at the earliest time at or after `t` at which the
`calls`-th most recent issue has aged out of the trailing window. -/
def gateResolve (calls : Nat) (hist : List Nat) (t : Nat) : Nat :=
  match hist.get? (calls - 1) with
  | none => t
  | some m => max t (m + ONE_MINUTE)

/-- Run a sequential caller against the gate: `gaps` are the delays the
caller inserts between one call's resolution and the next call's arrival
(all zero for a back-to-back burst); `t0` is the clock at start.  Returns
the issue times, most recent first. -/
def runGateAux (calls t0 : Nat) : List Nat → List Nat → List Nat
  | hist, [] => hist
  | hist, g :: gaps =>
    runGateAux calls t0 (gateResolve calls hist (hist.headD t0 + g) :: hist) gaps

/-- Issue times of a whole call sequence through the gate. -/
def acquireRun (calls t0 : Nat) (gaps : List Nat) : List Nat :=
  runGateAux calls t0 [] gaps

/-- Number of issue times lying in the trailing window of length
`ONE_MINUTE` that ends at time `t`. -/
def windowCount (times : List Nat) (t : Nat) : Nat :=
  (times.filter (fun x => decide (x ≤ t ∧ t < x + ONE_MINUTE))).length

/-- Issue times are non-increasing (most recent first). -/
def GateSorted (hist : List Nat) : Prop :=
  List.Chain' (fun a b => b ≤ a) hist

/-- Issues `calls` positions apart are at least a window apart. -/
def GateSep (calls : Nat) (hist : List Nat) : Prop :=
  ∀ i x y, hist.get? i = some x → hist.get? (i + calls) = some y → y + ONE_MINUTE ≤ x

/-- A concrete hit used to exercise the theorems on explicit inputs:
empty assignee, CPC and WIPO lists, one inventor with only a first name. -/
def samplePatent : Patent :=
  { patent_id := some "P1"
    patent_title := some "Solar panel"
    patent_date := some "2024-01-01"
    assignees := []
    cpc_current := []
    inventors := [{ inventor_name_first := some "First", inventor_name_last := none }]
    wipo := [] }

/-- A concrete hit with a given id and no nested data. -/
def hitWithId (id : String) : Patent :=
  { patent_id := some id
    patent_title := some "T"
    patent_date := some "2024-01-01"
    assignees := []
    cpc_current := []
    inventors := []
    wipo := [] }

/-- A well-formed search body whose `error` flag is truthy. -/
def errorSearchBody : SearchBody :=
  { error := some true, patents := [samplePatent], total_hits := 1 }

/-- A well-formed search body with no `error` key but with hits. -/
def noFlagSearchBody : SearchBody :=
  { error := none, patents := [samplePatent], total_hits := 1 }

/-- A well-formed summary body with no `error` key but with summary text. -/
def noFlagSummaryBody : SummaryBody :=
  { error := none, g_brf_sum_texts := [{ summary_text := some "Text A" }] }

/-- A successful summary body carrying one summary text. -/
def okSummaryBody : SummaryBody :=
  { error := some false, g_brf_sum_texts := [{ summary_text := some "Text A" }] }

/-- A successful summary body whose text list is empty. -/
def emptySummaryBody : SummaryBody :=
  { error := some false, g_brf_sum_texts := [] }

/-- A successful search body carrying three hits. -/
def threeHitBody : SearchBody :=
  { error := some false
    patents := [hitWithId "P1", hitWithId "P2", hitWithId "P3"]
    total_hits := 3 }

/-- A stored row for `samplePatent` under an earlier topic. -/
def sampleRow : PatentRow :=
  rowOf (extract_patent_metadata samplePatent) none "old-topic"

/-- C4: normalization is defensive.  A hit with empty assignee, CPC and
WIPO lists and one inventor entry carrying only a first name yields
absent assignee fields, empty `cpc_groups`, absent `wipo_field_id`,
`inventor_count = 1` and `inventor_names = ["First"]`, without raising;
moreover, on every hit, `inventor_count` counts inventor entries and each
inventor name is first and last name joined by a space and stripped, with
missing parts read as empty strings. -/
theorem extract_patent_metadata_defensive (p : Patent) (f : String)
    (ha : p.assignees = []) (hc : p.cpc_current = []) (hw : p.wipo = [])
    (hi : p.inventors = [{ inventor_name_first := some f, inventor_name_last := none }]) :
    (extract_patent_metadata p).assignee_organization = none ∧
    (extract_patent_metadata p).assignee_country = none ∧
    (extract_patent_metadata p).assignee_type = none ∧
    (extract_patent_metadata p).cpc_groups = [] ∧
    (extract_patent_metadata p).wipo_field_id = none ∧
    (extract_patent_metadata p).inventor_count = 1 ∧
    (extract_patent_metadata p).inventor_names = [pyStrip (f ++ " " ++ "")] ∧
    (f = "First" → (extract_patent_metadata p).inventor_names = ["First"]) ∧
    (∀ q : Patent, (extract_patent_metadata q).inventor_count = q.inventors.length) ∧
    (∀ q : Patent, (extract_patent_metadata q).inventor_names =
      q.inventors.map (fun inv =>
        pyStrip ((inv.inventor_name_first.getD "") ++ " " ++ (inv.inventor_name_last.getD "")))) := by
  refine ⟨?_, ?_, ?_, ?_, ?_, ?_, ?_, ?_, ?_, ?_⟩
  · simp [extract_patent_metadata, ha]
  · simp [extract_patent_metadata, ha]
  · simp [extract_patent_metadata, ha]
  · simp [extract_patent_metadata, hc]
  · simp [extract_patent_metadata, hw]
  · simp [extract_patent_metadata, hi]
  · simp [extract_patent_metadata, hi, inventorName]
  · rintro rfl
    simp [extract_patent_metadata, hi, inventorName]
    decide
  · intro q; simp [extract_patent_metadata]
  · intro q; simp [extract_patent_metadata, inventorName]

/-- Witness for C4 at the concrete hit `samplePatent`. -/
theorem extract_patent_metadata_defensive_witness :
    samplePatent.assignees = [] ∧
    (extract_patent_metadata samplePatent).assignee_organization = none ∧
    (extract_patent_metadata samplePatent).cpc_groups = [] ∧
    (extract_patent_metadata samplePatent).wipo_field_id = none ∧
    (extract_patent_metadata samplePatent).inventor_count = 1 ∧
    (extract_patent_metadata samplePatent).inventor_names = ["First"] := by
  have h := extract_patent_metadata_defensive samplePatent "First" rfl rfl rfl rfl
  exact ⟨rfl, h.1, h.2.2.2.1, h.2.2.2.2.1, h.2.2.2.2.2.1, h.2.2.2.2.2.2.2.1 rfl⟩

/-- C5: for every query, `search_patents` yields the empty list instead of
propagating on any transport-level failure, and likewise on a well-formed
body whose error flag is truthy or absent. -/
theorem search_patents_error_handling :
    (∀ e : TransportFailure, search_patents (Except.error e) = []) ∧
    (∀ data : SearchBody, data.error.getD true = true →
      search_patents (Except.ok data) = []) := by
  constructor
  · intro e; rfl
  · intro data h; simp [search_patents, h]

/-- Witness for C5: a timeout and a truthy-error body both give `[]`. -/
theorem search_patents_error_handling_witness :
    search_patents (Except.error TransportFailure.timeout) = [] ∧
    errorSearchBody.error.getD true = true ∧
    search_patents (Except.ok errorSearchBody) = [] :=
  ⟨search_patents_error_handling.1 TransportFailure.timeout, rfl,
   search_patents_error_handling.2 errorSearchBody rfl⟩

/-- C6: `fetch_patent_summary` returns the first element's summary text,
and `none` — never an exception — on a transport failure, on a truthy or
absent error flag, or when no summary-text object is present. -/
theorem fetch_patent_summary_spec :
    (∀ e : TransportFailure, fetch_patent_summary (Except.error e) = none) ∧
    (∀ data : SummaryBody, data.error.getD true = true →
      fetch_patent_summary (Except.ok data) = none) ∧
    (∀ data : SummaryBody, data.g_brf_sum_texts = [] →
      fetch_patent_summary (Except.ok data) = none) ∧
    (∀ (data : SummaryBody) (t : SummaryTextRec) (rest : List SummaryTextRec),
      data.error = some false → data.g_brf_sum_texts = t :: rest →
      fetch_patent_summary (Except.ok data) = t.summary_text) := by
  refine ⟨fun e => rfl, fun data h => ?_, fun data h => ?_, fun data t rest he hg => ?_⟩
  · simp [fetch_patent_summary, h]
  · simp only [fetch_patent_summary, h]
    split <;> rfl
  · simp [fetch_patent_summary, he, hg]

/-- Witness for C6: transport failure, empty text list and a one-element
text list, each at a concrete input. -/
theorem fetch_patent_summary_spec_witness :
    fetch_patent_summary (Except.error TransportFailure.connectionError) = none ∧
    emptySummaryBody.g_brf_sum_texts = [] ∧
    fetch_patent_summary (Except.ok emptySummaryBody) = none ∧
    fetch_patent_summary (Except.ok okSummaryBody) = some "Text A" :=
  ⟨fetch_patent_summary_spec.1 TransportFailure.connectionError, rfl,
   fetch_patent_summary_spec.2.2.1 emptySummaryBody rfl,
   fetch_patent_summary_spec.2.2.2 okSummaryBody { summary_text := some "Text A" } [] rfl rfl⟩

/-- C10: a well-formed body lacking the `error` key is treated as an
application-level error by both endpoints — the flag defaults to true —
even if hits or summary text are present. -/
theorem missing_error_flag_defaults_true (sdata : SearchBody) (mdata : SummaryBody)
    (hs : sdata.error = none) (hm : mdata.error = none) :
    search_patents (Except.ok sdata) = [] ∧
    fetch_patent_summary (Except.ok mdata) = none := by
  constructor
  · simp [search_patents, hs]
  · simp [fetch_patent_summary, hm]

/-- Witness for C10: bodies with no `error` key but with a hit and with
summary text still yield empty and absent results. -/
theorem missing_error_flag_defaults_true_witness :
    noFlagSearchBody.error = none ∧
    noFlagSearchBody.patents ≠ [] ∧
    noFlagSummaryBody.g_brf_sum_texts ≠ [] ∧
    search_patents (Except.ok noFlagSearchBody) = [] ∧
    fetch_patent_summary (Except.ok noFlagSummaryBody) = none :=
  ⟨rfl, by decide, by decide,
   (missing_error_flag_defaults_true noFlagSearchBody noFlagSummaryBody rfl rfl).1,
   (missing_error_flag_defaults_true noFlagSearchBody noFlagSummaryBody rfl rfl).2⟩

lemma updateRow_patent_id (r row : PatentRow) : (updateRow r row).patent_id = row.patent_id := by
  unfold updateRow; split <;> rfl

lemma updateRow_self (r : PatentRow) : updateRow r r = r := by
  unfold updateRow
  rw [if_pos rfl]

lemma updateRow_idem (r row : PatentRow) : updateRow r (updateRow r row) = updateRow r row := by
  by_cases hr : row.patent_id = r.patent_id <;> simp [updateRow, hr]

lemma updateRow_of_ne (r row : PatentRow) (h : row.patent_id ≠ r.patent_id) :
    updateRow r row = row := by
  unfold updateRow
  rw [if_neg h]

/-- C2: on a conflicting insert, the ON CONFLICT clause rewrites each
stored row in place through `updateRow`; a matching row takes the new
`summary_text` and `search_topic`, and every other column of every row —
id, title, date, assignee fields, `cpc_groups`, `wipo_field_id`,
`inventor_count`, `inventor_names`, `raw_data` — keeps its stored value. -/
theorem insert_patent_conflict_frame (tbl : List PatentRow) (pd : PatentData)
    (s : Option String) (topic : String)
    (h : tbl.any (fun row => decide (row.patent_id = (rowOf pd s topic).patent_id)) = true) :
    (∀ i : Nat, (insert_patent tbl pd s topic).get? i =
      (tbl.get? i).map (updateRow (rowOf pd s topic))) ∧
    (∀ row : PatentRow, row.patent_id = pd.patent_id →
      (updateRow (rowOf pd s topic) row).summary_text = s ∧
      (updateRow (rowOf pd s topic) row).search_topic = topic) ∧
    (∀ row : PatentRow,
      (updateRow (rowOf pd s topic) row).patent_id = row.patent_id ∧
      (updateRow (rowOf pd s topic) row).patent_title = row.patent_title ∧
      (updateRow (rowOf pd s topic) row).patent_date = row.patent_date ∧
      (updateRow (rowOf pd s topic) row).assignee_organization = row.assignee_organization ∧
      (updateRow (rowOf pd s topic) row).assignee_country = row.assignee_country ∧
      (updateRow (rowOf pd s topic) row).assignee_type = row.assignee_type ∧
      (updateRow (rowOf pd s topic) row).cpc_groups = row.cpc_groups ∧
      (updateRow (rowOf pd s topic) row).wipo_field_id = row.wipo_field_id ∧
      (updateRow (rowOf pd s topic) row).inventor_count = row.inventor_count ∧
      (updateRow (rowOf pd s topic) row).inventor_names = row.inventor_names ∧
      (updateRow (rowOf pd s topic) row).raw_data = row.raw_data) := by
  refine ⟨?_, ?_, ?_⟩
  · intro i
    unfold insert_patent upsertRow
    rw [if_pos h, List.get?_map]
  · intro row hrow
    have hrow2 : row.patent_id = (rowOf pd s topic).patent_id := hrow
    unfold updateRow
    rw [if_pos hrow2]
    exact ⟨rfl, rfl⟩
  · intro row
    unfold updateRow
    split <;> exact ⟨rfl, rfl, rfl, rfl, rfl, rfl, rfl, rfl, rfl, rfl, rfl⟩

/-- Witness for C2: re-inserting `samplePatent` with a new summary and
topic over its stored row updates exactly those two columns. -/
theorem insert_patent_conflict_frame_witness :
    ([sampleRow].any (fun row =>
      decide (row.patent_id =
        (rowOf (extract_patent_metadata samplePatent) (some "Text A") "solar").patent_id)) = true) ∧
    (insert_patent [sampleRow] (extract_patent_metadata samplePatent) (some "Text A") "solar").get? 0 =
      some (updateRow (rowOf (extract_patent_metadata samplePatent) (some "Text A") "solar") sampleRow) ∧
    (updateRow (rowOf (extract_patent_metadata samplePatent) (some "Text A") "solar")
      sampleRow).summary_text = some "Text A" ∧
    (updateRow (rowOf (extract_patent_metadata samplePatent) (some "Text A") "solar")
      sampleRow).raw_data = sampleRow.raw_data := by
  have h := insert_patent_conflict_frame [sampleRow] (extract_patent_metadata samplePatent)
    (some "Text A") "solar" (by decide)
  refine ⟨by decide, ?_, (h.2.1 sampleRow (by decide)).1, (h.2.2 sampleRow).2.2.2.2.2.2.2.2.2.2⟩
  rw [h.1 0]
  rfl

lemma upsertRow_idem (tbl : List PatentRow) (r : PatentRow) :
    upsertRow (upsertRow tbl r) r = upsertRow tbl r := by
  by_cases h : tbl.any (fun row => decide (row.patent_id = r.patent_id)) = true
  · unfold upsertRow
    rw [if_pos h, if_pos ?hany]
    case hany =>
      obtain ⟨x, hx, hpx⟩ := List.any_eq_true.mp h
      exact List.any_eq_true.mpr
        ⟨updateRow r x, List.mem_map_of_mem _ hx, by simpa [updateRow_patent_id] using hpx⟩
    rw [List.map_map]
    exact List.map_congr_left (fun x _ => updateRow_idem r x)
  · unfold upsertRow
    rw [if_neg h, if_pos ?hany2]
    case hany2 =>
      exact List.any_eq_true.mpr ⟨r, by simp, by simp⟩
    rw [List.map_append]
    have hnot : ∀ x ∈ tbl, x.patent_id ≠ r.patent_id := by
      intro x hx hxeq
      exact h (List.any_eq_true.mpr ⟨x, hx, by simp [hxeq]⟩)
    have h1 : tbl.map (updateRow r) = tbl := by
      have := List.map_congr_left (fun x hx => updateRow_of_ne r x (hnot x hx))
      simpa using this
    rw [h1]
    simp [updateRow_self]

/-- C8: the upsert is idempotent — inserting the same record twice with
the same summary and topic leaves the table after the second call equal
to the table after the first (no duplicate row, identical columns). -/
theorem insert_patent_idempotent (tbl : List PatentRow) (pd : PatentData)
    (s : Option String) (topic : String) :
    insert_patent (insert_patent tbl pd s topic) pd s topic = insert_patent tbl pd s topic :=
  upsertRow_idem tbl (rowOf pd s topic)

/-- C7: when the search for a topic yields nothing, `process_topic`
returns 0 at once: the table is untouched, no summary fetch is issued and
no upsert is attempted. -/
theorem process_topic_empty_search (tc : TopicConfig)
    (searchResp : Except TransportFailure SearchBody)
    (summaryResp : Option String → Except TransportFailure SummaryBody)
    (insertOk : Nat → Bool) (tbl : List PatentRow)
    (h : search_patents searchResp = []) :
    process_topic tc searchResp summaryResp insertOk tbl =
      { inserted_count := 0, tbl := tbl, fetchedIds := [], upsertAttempts := 0 } := by
  simp [process_topic, h]

/-- Witness for C7 at a concrete failing search. -/
theorem process_topic_empty_search_witness :
    search_patents (Except.error TransportFailure.timeout) = [] ∧
    process_topic { name := "solar", query := "solar panel", max_patents := 2 }
        (Except.error TransportFailure.timeout)
        (fun _ => Except.error TransportFailure.timeout) (fun _ => true) [] =
      { inserted_count := 0, tbl := [], fetchedIds := [], upsertAttempts := 0 } :=
  ⟨rfl, process_topic_empty_search _ _ _ _ _ rfl⟩

lemma processHits_count (topic_name : String)
    (summaryResp : Option String → Except TransportFailure SummaryBody)
    (insertOk : Nat → Bool) :
    ∀ (ps : List Patent) (i : Nat) (st : ProcResult),
      (processHits topic_name summaryResp insertOk ps i st).inserted_count =
        st.inserted_count + ((List.range' i ps.length).filter (fun j => insertOk j)).length := by
  intro ps
  induction ps with
  | nil => intro i st; simp [processHits, List.range']
  | cons p rest ih =>
    intro i st
    simp only [processHits]
    cases hik : insertOk i <;>
      simp [hik, ih, List.length_cons, List.range'_succ, List.filter_cons] <;> omega

lemma processHits_attempts (topic_name : String)
    (summaryResp : Option String → Except TransportFailure SummaryBody)
    (insertOk : Nat → Bool) :
    ∀ (ps : List Patent) (i : Nat) (st : ProcResult),
      (processHits topic_name summaryResp insertOk ps i st).upsertAttempts =
        st.upsertAttempts + ps.length := by
  intro ps
  induction ps with
  | nil => intro i st; simp [processHits]
  | cons p rest ih =>
    intro i st
    simp only [processHits]
    cases hik : insertOk i <;> simp [hik, ih, List.length_cons] <;> omega

lemma processHits_fetched (topic_name : String)
    (summaryResp : Option String → Except TransportFailure SummaryBody)
    (insertOk : Nat → Bool) :
    ∀ (ps : List Patent) (i : Nat) (st : ProcResult),
      (processHits topic_name summaryResp insertOk ps i st).fetchedIds =
        st.fetchedIds ++ ps.map (fun p => p.patent_id) := by
  intro ps
  induction ps with
  | nil => intro i st; simp [processHits]
  | cons p rest ih =>
    intro i st
    simp only [processHits]
    cases hik : insertOk i <;> simp [hik, ih]

lemma processHits_tbl (topic_name : String)
    (summaryResp : Option String → Except TransportFailure SummaryBody)
    (insertOk : Nat → Bool) :
    ∀ (ps : List Patent) (i : Nat) (st : ProcResult),
      (processHits topic_name summaryResp insertOk ps i st).tbl =
        ((ps.enumFrom i).filter (fun q => insertOk q.1)).foldl
          (fun t q => insert_patent t (extract_patent_metadata q.2)
            (fetch_patent_summary (summaryResp q.2.patent_id)) topic_name) st.tbl := by
  intro ps
  induction ps with
  | nil => intro i st; simp [processHits]
  | cons p rest ih =>
    intro i st
    simp only [processHits]
    cases hik : insertOk i <;>
      simp [hik, ih, List.enumFrom_cons, List.filter_cons]

/-- C3: a storage failure on one record only rolls that record back: the
loop attempts every hit, the returned count is the number of iterations
whose upsert succeeded, and the final table is the fold of the successful
upserts alone, in order. -/
theorem process_topic_partial_failure (tc : TopicConfig)
    (searchResp : Except TransportFailure SearchBody)
    (summaryResp : Option String → Except TransportFailure SummaryBody)
    (insertOk : Nat → Bool) (tbl : List PatentRow)
    (h : search_patents searchResp ≠ []) :
    (process_topic tc searchResp summaryResp insertOk tbl).inserted_count =
      ((List.range (search_patents searchResp).length).filter (fun j => insertOk j)).length ∧
    (process_topic tc searchResp summaryResp insertOk tbl).upsertAttempts =
      (search_patents searchResp).length ∧
    (process_topic tc searchResp summaryResp insertOk tbl).tbl =
      (((search_patents searchResp).enum).filter (fun q => insertOk q.1)).foldl
        (fun t q => insert_patent t (extract_patent_metadata q.2)
          (fetch_patent_summary (summaryResp q.2.patent_id)) tc.name) tbl := by
  have hne : (search_patents searchResp).isEmpty = false := by
    cases hs : search_patents searchResp with
    | nil => exact absurd hs h
    | cons a l => rfl
  refine ⟨?_, ?_, ?_⟩
  · unfold process_topic
    rw [if_neg (by simp [hne])]
    rw [processHits_count, List.range_eq_range']
    simp
  · unfold process_topic
    rw [if_neg (by simp [hne])]
    rw [processHits_attempts]
    simp
  · unfold process_topic
    rw [if_neg (by simp [hne])]
    rw [processHits_tbl, List.enum_eq_enumFrom]

/-- Witness for C3: three hits whose 2nd upsert fails give a count of 2. -/
theorem process_topic_partial_failure_witness :
    search_patents (Except.ok threeHitBody) ≠ [] ∧
    (process_topic { name := "solar", query := "q", max_patents := 3 }
        (Except.ok threeHitBody) (fun _ => Except.error TransportFailure.timeout)
        (fun i => i != 1) []).inserted_count = 2 := by
  have h := process_topic_partial_failure
    { name := "solar", query := "q", max_patents := 3 }
    (Except.ok threeHitBody) (fun _ => Except.error TransportFailure.timeout)
    (fun i => i != 1) [] (by decide)
  refine ⟨by decide, ?_⟩
  rw [h.1]
  decide

lemma process_topic_count_indep (tc : TopicConfig)
    (searchResp : Except TransportFailure SearchBody)
    (summaryResp : Option String → Except TransportFailure SummaryBody)
    (insertOk : Nat → Bool) (tbl tblAlt : List PatentRow) :
    (process_topic tc searchResp summaryResp insertOk tbl).inserted_count =
      (process_topic tc searchResp summaryResp insertOk tblAlt).inserted_count := by
  unfold process_topic
  cases hs : (search_patents searchResp).isEmpty <;> simp [hs, processHits_count]

/-- C9: the orchestration loop of `main` visits the topics in the given
order, threading one table through, and its grand total is the sum of the
per-topic counts returned by `process_topic`. -/
theorem main_total_is_sum (topics : List TopicConfig)
    (searchRespF : TopicConfig → Except TransportFailure SearchBody)
    (summaryResp : Option String → Except TransportFailure SummaryBody)
    (insertOkF : TopicConfig → Nat → Bool) (tbl : List PatentRow) :
    (main topics searchRespF summaryResp insertOkF tbl).1 =
      (topics.map (fun tc =>
        (process_topic tc (searchRespF tc) summaryResp (insertOkF tc) tbl).inserted_count)).sum := by
  suffices hgen : ∀ (ts : List TopicConfig) (a : Nat) (t : List PatentRow),
      (ts.foldl
        (fun acc topic =>
          let st := process_topic topic (searchRespF topic) summaryResp (insertOkF topic) acc.2
          (acc.1 + st.inserted_count, st.tbl))
        (a, t)).1 =
      a + (ts.map (fun tc =>
        (process_topic tc (searchRespF tc) summaryResp (insertOkF tc) tbl).inserted_count)).sum by
    simpa [main] using hgen topics 0 tbl
  intro ts
  induction ts with
  | nil => intro a t; simp
  | cons tc rest ih =>
    intro a t
    simp only [List.foldl_cons, List.map_cons, List.sum_cons]
    rw [ih]
    rw [process_topic_count_indep tc (searchRespF tc) summaryResp (insertOkF tc) t tbl]
    omega

lemma gateResolve_ge (c : Nat) (hist : List Nat) (t : Nat) : t ≤ gateResolve c hist t := by
  unfold gateResolve
  split
  · exact le_rfl
  · exact le_max_left _ _

lemma step_sorted_sep (c : Nat) (hc : 1 ≤ c) (hist : List Nat) (t : Nat)
    (hs : GateSorted hist) (hp : GateSep c hist) (ht : ∀ h0 ∈ hist.head?, h0 ≤ t) :
    GateSorted (gateResolve c hist t :: hist) ∧ GateSep c (gateResolve c hist t :: hist) := by
  constructor
  · rw [GateSorted, List.chain'_cons']
    refine ⟨fun y hy => le_trans (ht y hy) (gateResolve_ge c hist t), hs⟩
  · intro i x y hx hy
    cases i with
    | zero =>
      have hxg : x = gateResolve c hist t := by simpa using hx.symm
      have hcy : hist.get? (c - 1) = some y := by
        have hcc : 0 + c = (c - 1) + 1 := by omega
        rw [hcc] at hy
        simpa using hy
      subst hxg
      unfold gateResolve
      rw [hcy]
      exact le_max_right _ _
    | succ j =>
      apply hp j x y
      · simpa using hx
      · have hjc : j + 1 + c = (j + c) + 1 := by omega
        rw [hjc] at hy
        simpa using hy

lemma runGateAux_inv (c t0 : Nat) (hc : 1 ≤ c) :
    ∀ (gaps : List Nat) (hist : List Nat), GateSorted hist → GateSep c hist →
      GateSorted (runGateAux c t0 hist gaps) ∧ GateSep c (runGateAux c t0 hist gaps) := by
  intro gaps
  induction gaps with
  | nil => intro hist hs hp; simpa [runGateAux] using And.intro hs hp
  | cons g gaps ih =>
    intro hist hs hp
    have ht : ∀ h0 ∈ hist.head?, h0 ≤ hist.headD t0 + g := by
      intro h0 hh
      cases hist with
      | nil => simp at hh
      | cons a l =>
        simp only [List.head?_cons, Option.mem_def, Option.some.injEq] at hh
        subst hh
        simp [List.headD]
    obtain ⟨hs2, hp2⟩ := step_sorted_sep c hc hist (hist.headD t0 + g) hs hp ht
    simpa [runGateAux] using ih _ hs2 hp2

lemma runGateAux_length (c t0 : Nat) :
    ∀ (gaps : List Nat) (hist : List Nat),
      (runGateAux c t0 hist gaps).length = hist.length + gaps.length := by
  intro gaps
  induction gaps with
  | nil => intro hist; simp [runGateAux]
  | cons g gaps ih =>
    intro hist
    rw [runGateAux, ih]
    simp [List.length_cons]
    omega

lemma sorted_get_le :
    ∀ (hist : List Nat), GateSorted hist → ∀ i j x y, i ≤ j →
      hist.get? i = some x → hist.get? j = some y → y ≤ x := by
  intro hist
  induction hist with
  | nil => intro _ i j x y _ hx _; simp at hx
  | cons a l ih =>
    intro hs i j x y hij hx hy
    rw [GateSorted, List.chain'_cons'] at hs
    obtain ⟨hhead, hl⟩ := hs
    cases j with
    | zero =>
      have hizero : i = 0 := Nat.le_zero.mp hij
      subst hizero
      simp only [List.get?_cons_zero, Option.some.injEq] at hx hy
      omega
    | succ jj =>
      cases i with
      | zero =>
        have hxa : a = x := by simpa using hx
        have hy2 : l.get? jj = some y := by simpa using hy
        cases l with
        | nil => simp at hy2
        | cons b m =>
          have hb : b ≤ a := hhead b rfl
          have hyb : y ≤ b := ih hl 0 jj b y (Nat.zero_le jj) rfl hy2
          omega
      | succ ii =>
        exact ih hl ii jj x y (by omega) (by simpa using hx) (by simpa using hy)

lemma filter_length_le_of_drop {α : Type} (p : α → Bool) (l : List α) (k : Nat)
    (h : ∀ x ∈ l.drop k, p x = false) : (l.filter p).length ≤ k := by
  conv_lhs => rw [← List.take_append_drop k l]
  rw [List.filter_append]
  have h2 : (l.drop k).filter p = [] :=
    List.filter_eq_nil.mpr (fun a ha => by simp [h a ha])
  rw [h2, List.append_nil]
  refine le_trans (List.length_filter_le _ _) ?_
  rw [List.length_take]
  exact min_le_left _ _

lemma windowCount_le (c : Nat) (hc : 1 ≤ c) :
    ∀ (hist : List Nat), GateSorted hist → GateSep c hist →
      ∀ t, windowCount hist t ≤ c := by
  intro hist
  induction hist with
  | nil => intro _ _ t; simp [windowCount]
  | cons a l ih =>
    intro hs hp t
    have hs2 : GateSorted l := (List.chain'_cons'.mp hs).2
    have hp2 : GateSep c l := by
      intro i x y hx hy
      apply hp (i + 1) x y
      · simpa using hx
      · have hic : i + 1 + c = (i + c) + 1 := by omega
        rw [hic]
        simpa using hy
    unfold windowCount
    rw [List.filter_cons]
    by_cases hpa : a ≤ t ∧ t < a + ONE_MINUTE
    · rw [if_pos (by simpa using hpa)]
      have hdrop : ∀ y ∈ l.drop (c - 1), (decide (y ≤ t ∧ t < y + ONE_MINUTE)) = false := by
        intro y hy
        obtain ⟨j, hj⟩ := List.mem_iff_get?.mp hy
        have hyget : l.get? ((c - 1) + j) = some y := by
          rw [← List.get?_drop]
          exact hj
        have hylt : (c - 1) + j < l.length := by
          obtain ⟨hlt, -⟩ := List.get?_eq_some.mp hyget
          exact hlt
        have hjlt : j < (a :: l).length := by simp; omega
        obtain ⟨z, hz⟩ : ∃ z, (a :: l).get? j = some z :=
          ⟨(a :: l).get ⟨j, hjlt⟩, List.get?_eq_get hjlt⟩
        have hsep : y + ONE_MINUTE ≤ z := by
          apply hp j z y hz
          have hjc : j + c = ((c - 1) + j) + 1 := by omega
          rw [hjc]
          simpa using hyget
        have hza : z ≤ a := sorted_get_le (a :: l) hs 0 j a z (Nat.zero_le j) rfl hz
        rw [decide_eq_false_iff_not]
        rintro ⟨-, hy2⟩
        omega
      have hfl := filter_length_le_of_drop _ l (c - 1) hdrop
      rw [List.length_cons]
      omega
    · rw [if_neg (by simpa using hpa)]
      simpa [windowCount] using ih hs2 hp2 t

/-- C1 (modelled from the spec, section 4.1, since the blocking semantics
live in the third-party `ratelimit` library): every `acquire` through the
gate resolves (no call is rejected, only delayed), at most `calls` issues
fall inside any trailing `ONE_MINUTE` window, and for any sequence —
back-to-back bursts included — the call `calls` positions after another
is not issued before a full window has elapsed since that earlier call. -/
theorem rate_gate_trailing_window (calls t0 : Nat) (hc : 1 ≤ calls) (gaps : List Nat) :
    (acquireRun calls t0 gaps).length = gaps.length ∧
    (∀ t, windowCount (acquireRun calls t0 gaps) t ≤ calls) ∧
    (∀ i x y, (acquireRun calls t0 gaps).get? i = some x →
      (acquireRun calls t0 gaps).get? (i + calls) = some y → y + ONE_MINUTE ≤ x) := by
  have hnil_s : GateSorted ([] : List Nat) := by simp [GateSorted]
  have hnil_p : GateSep calls ([] : List Nat) := by
    intro i x y hx _
    simp at hx
  have hinv := runGateAux_inv calls t0 hc gaps [] hnil_s hnil_p
  refine ⟨?_, fun t => windowCount_le calls hc _ hinv.1 hinv.2 t, hinv.2⟩
  have hlen := runGateAux_length calls t0 gaps []
  simpa [acquireRun] using hlen

/-- Witness for C1: budget 2, three back-to-back calls — all three are
issued, and no instant of the run sees more than two issues in its
trailing window. -/
theorem rate_gate_trailing_window_witness :
    1 ≤ 2 ∧ (acquireRun 2 0 [0, 0, 0]).length = 3 ∧
    windowCount (acquireRun 2 0 [0, 0, 0]) 0 ≤ 2 :=
  ⟨by decide, (rate_gate_trailing_window 2 0 (by decide) [0, 0, 0]).1,
   (rate_gate_trailing_window 2 0 (by decide) [0, 0, 0]).2.1 0⟩

end SeedPatents
